import Mathlib

/-!
Verification of the session-management core of the peroxide mail gateway.

Part 1 embeds the IMAP backend session multiplexer (`pkg/imap/backend.go`):
the lowercased address → session-wrapper cache, `getUser` / `createUser`
lookup-or-create, `deleteUser` eviction and the `Login` entry point with its
observable side effects (wrapper logout, throttling sleep, change-notifier
attachment).  The surrounding collaborators (`users.Users`, the per-user
methods `BringOnline`, `GetAddressID`, `CheckCredentials`, `DecodeLogin`)
are modelled as oracles in a `BackendEnv`, since the multiplexer only calls
them.  The Go code holds `usersLocker` around every cache access, so any
concurrent interleaving of logins is equivalent to some sequential order;
sequences of calls therefore model arbitrary interleavings.

Part 2 embeds the users manager's `FinishLogin` state machine.
-/

namespace Peroxide

/-- An underlying account session as seen by the backend: the object returned
by `usersMgr.GetUser`.  `storePresent` models `user.GetStore() != nil`. -/
structure Account where
  id : String
  primaryAddress : String
  addresses : List String
  storePresent : Bool
deriving DecidableEq, Repr

/-- `strings.ToLower`, modelled as the character-wise lowercase mapping on
the string's characters. -/
def lowercase (s : String) : String :=
  ⟨s.data.map Char.toLower⟩

/-- The session wrapper cached by the backend (`imapUser` in `backend.go`):
`newIMAPUser(ib, user, addressID, address)` stores exactly these fields. -/
structure ImapUser where
  user : Account
  addressID : String
  address : String
deriving DecidableEq, Repr

/-- Oracles for the collaborators the backend calls.  `GetUser` is
`usersMgr.GetUser(address)` (address resolution), `BringOnline`,
`GetAddressID` and `CheckCredentials` are the per-user methods, with `true` /
`some` meaning success; `newIMAPUserOK` models whether `newIMAPUser`
construction succeeds; `DecodeLogin` splits the login name into address and
routing slot. -/
structure BackendEnv where
  GetUser : String → Option Account
  BringOnline : Account → String → String → Bool
  GetAddressID : Account → String → Option String
  newIMAPUserOK : Account → String → String → Bool
  CheckCredentials : Account → String → String → Bool
  DecodeLogin : String → String × String

/-- The backend cache `ib.users : map[string]*imapUser`, as an association
list with distinct keys. -/
abbrev UserMap := List (String × ImapUser)

/-- Map lookup `ib.users[address]`. -/
def lookupUser (m : UserMap) (k : String) : Option ImapUser :=
  match m.find? (fun p => p.1 == k) with
  | some p => some p.2
  | none => none

/-- The distinct error exits of `getUser`/`createUser`/`Login`. -/
inductive BackendError where
  | getUserFailed
  | bringOnlineFailed
  | getAddressIDFailed
  | newIMAPUserFailed
  | badCredentials
deriving DecidableEq, Repr

/-- `createUser` from `backend.go` (lines 110-143): resolve the address via
the users manager, bring the user online, re-key under the lowercased
canonical primary address, reuse an already-cached wrapper for the same
account, otherwise construct and insert a new wrapper.  Returns the result
together with the new cache state. -/
def createUser (env : BackendEnv) (m : UserMap) (address slot password : String) :
    Except BackendError ImapUser × UserMap :=
  match env.GetUser address with
  | none => (.error .getUserFailed, m)
  | some user =>
    if env.BringOnline user slot password then
      match lookupUser m (lowercase user.primaryAddress) with
      | some combinedUser => (.ok combinedUser, m)
      | none =>
        match env.GetAddressID user (lowercase user.primaryAddress) with
        | none => (.error .getAddressIDFailed, m)
        | some addressID =>
          if env.newIMAPUserOK user addressID (lowercase user.primaryAddress) then
            (.ok { user := user, addressID := addressID,
                   address := lowercase user.primaryAddress },
             (lowercase user.primaryAddress,
              ({ user := user, addressID := addressID,
                 address := lowercase user.primaryAddress } : ImapUser)) :: m)
          else (.error .newIMAPUserFailed, m)
    else (.error .bringOnlineFailed, m)

/-- `getUser` from `backend.go` (lines 98-108): lowercase the address, return
the cached wrapper if present, otherwise fall through to `createUser`. -/
def getUser (env : BackendEnv) (m : UserMap) (address slot password : String) :
    Except BackendError ImapUser × UserMap :=
  match lookupUser m (lowercase address) with
  | some imapUser => (.ok imapUser, m)
  | none => createUser env m (lowercase address) slot password

/-- `deleteUser` from `backend.go` (lines 145-154): remove the entry keyed by
the lowercased address from the cache. -/
def deleteUser (m : UserMap) (address : String) : UserMap :=
  m.filter (fun p => p.1 != lowercase address)

/-- Observable side effects of a `Login` call, in program order:
`imapUser.Logout()`, `time.Sleep(10 * time.Second)`, and
`store.SetChangeNotifier(ib.updates)` on the named account's store. -/
inductive Effect where
  | logout (address : String)
  | sleepSeconds (n : Nat)
  | setChangeNotifier (accountId : String)
deriving DecidableEq, Repr

/-- `Login` from `backend.go` (lines 156-187): decode the login name, resolve
the wrapper through `getUser`, then check credentials; on credential failure
log the wrapper out and sleep 10 seconds before returning the error; on
success attach the shared change notifier whenever the user's store is
non-nil. -/
def Login (env : BackendEnv) (m : UserMap) (username password : String) :
    Except BackendError ImapUser × UserMap × List Effect :=
  let (username, slot) := env.DecodeLogin username
  match getUser env m username slot password with
  | (.error e, m') => (.error e, m', [])
  | (.ok imapUser, m') =>
    if env.CheckCredentials imapUser.user slot password then
      if imapUser.user.storePresent then
        (.ok imapUser, m', [.setChangeNotifier imapUser.user.id])
      else
        (.ok imapUser, m', [])
    else
      (.error .badCredentials, m', [.logout imapUser.address, .sleepSeconds 10])

/-- Run a sequence of `Login` calls (username, password pairs), threading the
cache state; effects are discarded. -/
def runLogins (env : BackendEnv) (m : UserMap) (calls : List (String × String)) : UserMap :=
  calls.foldl (fun m c => (Login env m c.1 c.2).2.1) m

/-- Number of cache entries whose wrapper belongs to the given account id. -/
def countEntries (m : UserMap) (accId : String) : Nat :=
  (m.filter (fun p => p.2.user.id == accId)).length

/-- The users manager resolves addresses consistently: two resolutions that
agree on the account id yield the same account object. -/
def directoryConsistent (env : BackendEnv) : Prop :=
  ∀ a b A B, env.GetUser a = some A → env.GetUser b = some B → A.id = B.id → A = B

/-- Structural invariant of the backend cache: keys are distinct, every entry
is keyed by the lowercased primary address of the account its wrapper holds,
and every cached account came from the users manager. -/
def cacheInv (env : BackendEnv) (m : UserMap) : Prop :=
  (m.map Prod.fst).Nodup ∧
  ∀ p ∈ m, p.1 = lowercase p.2.user.primaryAddress ∧ ∃ a, env.GetUser a = some p.2.user

/-- The set of account ids whose store has the shared change notifier
attached; `SetChangeNotifier` always installs the one shared `ib.updates`
object, so attachment state is just this set.  Folding a `Login` effect list
applies its notifier attachments. -/
def attachEffects (attached : List String) (effs : List Effect) : List String :=
  effs.foldl
    (fun acc e =>
      match e with
      | .setChangeNotifier i => if i ∈ acc then acc else i :: acc
      | _ => acc)
    attached

/-! Part 2: the users manager's `FinishLogin` state machine.  The
implementation file of `pkg/users` is not among the provided sources; the
provided `users_login_test.go` pins its observable behaviour (mock call
order, returned session / key / error, registry size).  The definitions
below are therefore modelled from the spec (§4.1) and that test. -/

/-- The auth value handed to `FinishLogin`: account id, freshly issued UID
and token pair (`pmapi.Auth` with its embedded `AuthRefresh`). -/
structure Auth where
  userID : String
  uid : String
  accessToken : String
  refreshToken : String
deriving DecidableEq, Repr

/-- An in-memory account session held by the users manager (`User`): account
id, associated addresses, and connection status (`connected = false` is the
Disconnected state). -/
structure User where
  userID : String
  addresses : List String
  connected : Bool
deriving DecidableEq, Repr

/-- The session registry: the manager's list of account sessions
(`users.users`). -/
structure UsersState where
  users : List User
deriving DecidableEq, Repr

/-- The account profile returned by `client.CurrentUser`. -/
structure UserProfile where
  id : String
  addresses : List String
deriving DecidableEq, Repr

/-- Modelled from the spec: oracles for the remote-service client and the
credential store used by `FinishLogin`.  `AuthSaltOK` is the salt fetch,
`Unlock` unlocks the account's private keys with the mailbox password,
`CurrentUser` fetches the profile; `storeAddOK` / `UpdateTokenOK` /
`UpdatePasswordOK` are the credential-store write outcomes and `storeAddKey`
is the derived-key string produced by the store's `Add`. -/
structure UsersEnv where
  AuthSaltOK : Bool
  Unlock : String → Bool
  CurrentUser : Option UserProfile
  storeAddOK : Bool
  UpdateTokenOK : Bool
  UpdatePasswordOK : Bool
  storeAddKey : String

/-- The error exits of `FinishLogin`.  `wrongMailboxPassword` is
`ErrWrongMailboxPassword`; `alreadyConnected` is the "user is already
connected" conflict. -/
inductive UsersError where
  | saltFailed
  | wrongMailboxPassword
  | profileFailed
  | alreadyConnected
  | storeFailed
deriving DecidableEq, Repr

/-- Calls issued to the credential store and the remote auth endpoint during
one `FinishLogin`, in program order. -/
inductive CredOp where
  | add (userID uid refreshToken mainKey mailboxPassword : String) (addresses : List String)
  | updateToken (userID uid refreshToken : String)
  | updatePassword (userID mailboxPassword : String)
  | authDelete (uid : String)
deriving DecidableEq, Repr

/-- Look up the registered session for an account id. -/
def findUser (users : List User) (id : String) : Option User :=
  users.find? (fun u => u.userID == id)

/-- Number of registered sessions for the given account id. -/
def countUsers (users : List User) (id : String) : Nat :=
  (users.filter (fun u => u.userID == id)).length

/-- Modelled from the spec: `FinishLogin(client, auth, mailboxPassword,
mainKey)` of `pkg/users`, whose implementation is not among the provided
sources.  Following spec §4.1 and the mock order pinned by
`users_login_test.go` (salt fetch, unlock, profile fetch, then the
registry branch): on unlock failure fail with `ErrWrongMailboxPassword`
and change nothing; for a brand-new account create a Connected session,
persist a new record via the store's `Add` and return its derived key; for
an existing Disconnected session update the record via `UpdateToken` and
`UpdatePassword`, transition the same session to Connected and return it
with an empty key; for an existing Connected session revoke the fresh auth
(`AuthDelete`) and fail with "user is already connected".  Returns the Go
triple (session, derived key string, error) plus the new registry state and
the credential-store / auth calls issued. -/
def FinishLogin (env : UsersEnv) (st : UsersState) (auth : Auth)
    (mailboxPassword mainKey : String) :
    (Option User × String × Option UsersError) × UsersState × List CredOp :=
  let id := auth.userID
  if !env.AuthSaltOK then ((none, "", some .saltFailed), st, [])
  else if !(env.Unlock mailboxPassword) then ((none, "", some .wrongMailboxPassword), st, [])
  else
    match env.CurrentUser with
    | none => ((none, "", some .profileFailed), st, [])
    | some profile =>
      match findUser st.users id with
      | some u =>
        if u.connected then
          ((none, "", some .alreadyConnected), st, [.authDelete auth.uid])
        else
          if env.UpdateTokenOK && env.UpdatePasswordOK then
            ((some { u with connected := true }, "", none),
             { users := st.users.map (fun v => if v.userID == id then { v with connected := true } else v) },
             [.updateToken id auth.uid auth.refreshToken, .updatePassword id mailboxPassword])
          else ((none, "", some .storeFailed), st,
                [.updateToken id auth.uid auth.refreshToken])
      | none =>
        if env.storeAddOK then
          let newUser : User := { userID := id, addresses := profile.addresses, connected := true }
          ((some newUser, env.storeAddKey, none),
           { users := st.users ++ [newUser] },
           [.add id auth.uid auth.refreshToken mainKey mailboxPassword profile.addresses])
        else ((none, "", some .storeFailed), st,
              [.add id auth.uid auth.refreshToken mainKey mailboxPassword profile.addresses])

/-! Concrete instances used by the witnesses. -/

/-- A concrete account with a primary address and one alias. -/
def acct1 : Account :=
  { id := "acct1", primaryAddress := "primary@example.com",
    addresses := ["primary@example.com", "alias@example.com"], storePresent := true }

/-- The wrapper `createUser` builds for `acct1`. -/
def wrapper1 : ImapUser :=
  { user := acct1, addressID := "addr-id-1", address := "primary@example.com" }

/-- A concrete backend environment: every address resolves to `acct1`, all
collaborator calls succeed, and the credential check accepts exactly the
password "good". -/
def envW : BackendEnv :=
  { GetUser := fun _ => some acct1
    BringOnline := fun _ _ _ => true
    GetAddressID := fun _ _ => some "addr-id-1"
    newIMAPUserOK := fun _ _ _ => true
    CheckCredentials := fun _ _ password => password == "good"
    DecodeLogin := fun s => (s, "") }

/-- The cache state after one successful login of `acct1`. -/
def mW : UserMap := [("primary@example.com", wrapper1)]

/-- A concrete auth value for `FinishLogin`. -/
def authW : Auth :=
  { userID := "user1", uid := "uid2", accessToken := "acc2", refreshToken := "ref2" }

/-- The concrete profile returned by the remote service. -/
def profileW : UserProfile :=
  { id := "user1", addresses := ["primary@example.com"] }

/-- A concrete users environment: salt fetch, profile fetch and store writes
succeed, the mailbox password "mbpass" unlocks the keys, and the store's
`Add` yields the key "derived-key". -/
def uenvW : UsersEnv :=
  { AuthSaltOK := true
    Unlock := fun pw => pw == "mbpass"
    CurrentUser := some profileW
    storeAddOK := true
    UpdateTokenOK := true
    UpdatePasswordOK := true
    storeAddKey := "derived-key" }

/-- The concrete account session in the Disconnected state. -/
def userDiscW : User :=
  { userID := "user1", addresses := ["primary@example.com"], connected := false }

/-- The concrete account session in the Connected state. -/
def userConnW : User :=
  { userID := "user1", addresses := ["primary@example.com"], connected := true }

/-- An empty registry. -/
def stEmptyW : UsersState := ⟨[]⟩

/-- A registry holding only the disconnected session. -/
def stDiscW : UsersState := ⟨[userDiscW]⟩

/-- A registry holding only the connected session. -/
def stConnW : UsersState := ⟨[userConnW]⟩

/-! Helper lemmas about the cache map. -/

theorem lookupUser_eq_none_iff (m : UserMap) (k : String) :
    lookupUser m k = none ↔ ∀ p ∈ m, ¬(p.1 == k) = true := by
  constructor
  · intro h p hp hbe
    unfold lookupUser at h
    cases hf : m.find? (fun p => p.1 == k) with
    | none =>
      rw [List.find?_eq_none] at hf
      exact hf p hp hbe
    | some q =>
      rw [hf] at h
      simp at h
  · intro h
    unfold lookupUser
    rw [List.find?_eq_none.mpr h]

theorem lookupUser_none_key_not_mem {m : UserMap} {k : String}
    (h : lookupUser m k = none) : k ∉ m.map Prod.fst := by
  intro hk
  rcases List.mem_map.mp hk with ⟨p, hp, hpk⟩
  exact (lookupUser_eq_none_iff m k).mp h p hp (by simp [hpk])

theorem length_le_one_of_nodup_allEq {α : Type} : ∀ (l : List α), l.Nodup →
    (∀ x ∈ l, ∀ y ∈ l, x = y) → l.length ≤ 1 := by
  intro l hnd heq
  match l with
  | [] => simp
  | [x] => simp
  | x :: y :: t =>
    exfalso
    have hxy : x = y := heq x (by simp) y (by simp)
    subst hxy
    simp at hnd

/-! Claim theorems for the backend multiplexer: eviction and case folding. -/

/-- Claim C8: eviction is idempotent — for every address and every backend
cache state, calling `deleteUser` twice with that address yields the same
cache state as calling it once, and calling `deleteUser` for an address with
no cache entry leaves the cache unchanged (a no-op, never an error). -/
theorem deleteUser_idempotent_and_noop (m : UserMap) (address : String) :
    deleteUser (deleteUser m address) address = deleteUser m address ∧
    (lookupUser m (lowercase address) = none → deleteUser m address = m) := by
  constructor
  · unfold deleteUser
    rw [List.filter_filter]
    simp
  · intro h
    unfold deleteUser
    rw [List.filter_eq_self]
    intro p hp
    have := (lookupUser_eq_none_iff m (lowercase address)).mp h p hp
    simpa using this

/-- Witness for C8: deleting an address that is absent from a concrete
one-entry cache leaves the cache unchanged. -/
theorem deleteUser_idempotent_and_noop_witness :
    lookupUser mW (lowercase "Missing@Example.Com") = none ∧
    deleteUser mW "Missing@Example.Com" = mW :=
  ⟨by decide, (deleteUser_idempotent_and_noop mW "Missing@Example.Com").2 (by decide)⟩

/-- Claim C9: login identity is case-insensitive — for every address string
and every backend state, `getUser` with that address and `getUser` with any
other casing of the same address consult and store under the same lowercased
cache key, so both resolve to the same session wrapper (the two calls return
identical results and identical cache states). -/
theorem getUser_case_insensitive (env : BackendEnv) (m : UserMap)
    (a a' slot password : String) (h : lowercase a = lowercase a') :
    getUser env m a slot password = getUser env m a' slot password := by
  unfold getUser
  rw [h]

/-- Witness for C9: two casings of the same concrete address produce the
same result on the empty cache. -/
theorem getUser_case_insensitive_witness :
    lowercase "Primary@Example.Com" = lowercase "primary@example.com" ∧
    getUser envW [] "Primary@Example.Com" "" "good" =
      getUser envW [] "primary@example.com" "" "good" :=
  ⟨by decide, getUser_case_insensitive envW [] "Primary@Example.Com" "primary@example.com" "" "good" (by decide)⟩

/-- Session resolution never produces the credential-check error: the error
exits of `getUser`/`createUser` are disjoint from `badCredentials`. -/
theorem getUser_error_ne_badCredentials (env : BackendEnv) (m : UserMap)
    (a s pw : String) (e : BackendError) (m' : UserMap)
    (h : getUser env m a s pw = (.error e, m')) : e ≠ .badCredentials := by
  unfold getUser createUser at h
  cases hlk : lookupUser m (lowercase a) with
  | some u => simp [hlk] at h
  | none =>
    simp only [hlk] at h
    cases hg : env.GetUser (lowercase a) with
    | none => simp [hg] at h; simp [← h.1]
    | some user =>
      simp only [hg] at h
      by_cases hb : env.BringOnline user s pw
      · simp only [hb, if_true] at h
        cases hlk2 : lookupUser m (lowercase user.primaryAddress) with
        | some cu => simp [hlk2] at h
        | none =>
          simp only [hlk2] at h
          cases hid : env.GetAddressID user (lowercase user.primaryAddress) with
          | none => simp [hid] at h; simp [← h.1]
          | some addressID =>
            simp only [hid] at h
            by_cases hn : env.newIMAPUserOK user addressID (lowercase user.primaryAddress)
            · simp [hn] at h
            · simp only [hn, if_false] at h
              simp at h
              simp [← h.1]
      · simp only [hb, if_false] at h
        simp at h
        simp [← h.1]

/-- Claim C7: for every backend `Login` call where the session resolves but
the credential check fails, `Login` logs out the partially-resolved session
wrapper and incurs a deliberate 10-second delay, both before returning a nil
session and the credential error; resolution failure and credential failure
are distinct error paths (a resolution failure propagates its own error with
no logout/delay and is never the credential error), and the credential check
is performed only after successful resolution. -/
theorem login_credential_failure_logout_and_delay (env : BackendEnv) (m : UserMap)
    (username password uname slot : String)
    (hdec : env.DecodeLogin username = (uname, slot)) :
    (∀ e m', getUser env m uname slot password = (.error e, m') →
      Login env m username password = (.error e, m', []) ∧ e ≠ .badCredentials) ∧
    (∀ u m', getUser env m uname slot password = (.ok u, m') →
      env.CheckCredentials u.user slot password = false →
      Login env m username password =
        (.error .badCredentials, m', [.logout u.address, .sleepSeconds 10])) := by
  constructor
  · intro e m' hg
    refine ⟨?_, getUser_error_ne_badCredentials env m uname slot password e m' hg⟩
    simp [Login, hdec, hg]
  · intro u m' hg hc
    simp [Login, hdec, hg, hc]

/-- Witness for C7: with the concrete environment the resolved wrapper fails
the credential check on password "bad", so `Login` returns the credential
error after logging the wrapper out and sleeping 10 seconds. -/
theorem login_credential_failure_logout_and_delay_witness :
    envW.DecodeLogin "primary@example.com" = ("primary@example.com", "") ∧
    getUser envW [] "primary@example.com" "" "bad" = (.ok wrapper1, mW) ∧
    envW.CheckCredentials wrapper1.user "" "bad" = false ∧
    Login envW [] "primary@example.com" "bad" =
      (.error .badCredentials, mW, [.logout wrapper1.address, .sleepSeconds 10]) :=
  ⟨by decide, by rfl, by decide,
   (login_credential_failure_logout_and_delay envW [] "primary@example.com" "bad"
      "primary@example.com" "" (by decide)).2 wrapper1 mW (by rfl) (by decide)⟩

/-- Counterexample to claim C6 as stated: with the concrete environment, the
first successful `Login` for the account attaches the change notifier, and a
second successful `Login` for the same account (now served from the cache)
attaches it again — the `SetChangeNotifier` call is issued on every
successful login, not only the first. -/
theorem login_notifier_reattach_counterexample :
    Login envW [] "primary@example.com" "good" =
      (.ok wrapper1, mW, [.setChangeNotifier "acct1"]) ∧
    Login envW mW "primary@example.com" "good" =
      (.ok wrapper1, mW, [.setChangeNotifier "acct1"]) :=
  ⟨rfl, rfl⟩

/-- Idempotence of attaching the shared notifier for one account. -/
theorem attachEffects_single_idem (attached : List String) (i : String) :
    attachEffects (attachEffects attached [.setChangeNotifier i]) [.setChangeNotifier i] =
      attachEffects attached [.setChangeNotifier i] := by
  simp only [attachEffects, List.foldl]
  by_cases h : i ∈ attached
  · simp [h]
  · simp [h]

/-- Claim C6, amended: every successful backend `Login` for an account whose
store exists attaches the shared change notifier (it is not only the first
login that does so), failed logins never attach it, and because the same
shared notifier object is installed each time, re-attachment is idempotent:
folding a successful login's effects a second time leaves the set of
notifier-attached accounts unchanged. -/
theorem login_attaches_notifier_every_success (env : BackendEnv) (m : UserMap)
    (username password : String) :
    (∀ u m' effs, Login env m username password = (.ok u, m', effs) →
      effs = (if u.user.storePresent then [.setChangeNotifier u.user.id] else []) ∧
      ∀ attached, attachEffects (attachEffects attached effs) effs = attachEffects attached effs) ∧
    (∀ e m' effs, Login env m username password = (.error e, m', effs) →
      ∀ i, Effect.setChangeNotifier i ∉ effs) := by
  rcases hdec : env.DecodeLogin username with ⟨uname, slot⟩
  constructor
  · intro u m' effs hl
    rcases hg : getUser env m uname slot password with ⟨r, m''⟩
    cases r with
    | error e => simp [Login, hdec, hg] at hl
    | ok iu =>
      by_cases hc : env.CheckCredentials iu.user slot password
      · by_cases hs : iu.user.storePresent
        · simp [Login, hdec, hg, hc, hs] at hl
          rcases hl with ⟨rfl, rfl, rfl⟩
          exact ⟨by simp [hs], fun attached => attachEffects_single_idem attached _⟩
        · simp [Login, hdec, hg, hc, hs] at hl
          rcases hl with ⟨rfl, rfl, rfl⟩
          exact ⟨by simp [hs], fun attached => rfl⟩
      · simp [Login, hdec, hg, hc] at hl
  · intro e m' effs hl i
    rcases hg : getUser env m uname slot password with ⟨r, m''⟩
    cases r with
    | error e' =>
      simp [Login, hdec, hg] at hl
      rcases hl with ⟨_, _, rfl⟩
      simp
    | ok iu =>
      by_cases hc : env.CheckCredentials iu.user slot password
      · by_cases hs : iu.user.storePresent <;> simp [Login, hdec, hg, hc, hs] at hl
      · simp [Login, hdec, hg, hc] at hl
        rcases hl with ⟨_, _, rfl⟩
        simp

/-- Witness for C6 (amended): a concrete successful login whose effect list
is exactly the notifier attachment, and whose re-application leaves the
attachment state unchanged. -/
theorem login_attaches_notifier_every_success_witness :
    ([.setChangeNotifier "acct1"] : List Effect) =
      (if wrapper1.user.storePresent then [.setChangeNotifier wrapper1.user.id] else []) ∧
    attachEffects (attachEffects [] [.setChangeNotifier "acct1"]) [.setChangeNotifier "acct1"] =
      attachEffects [] [.setChangeNotifier "acct1"] :=
  ⟨((login_attaches_notifier_every_success envW [] "primary@example.com" "good").1
      wrapper1 mW [.setChangeNotifier "acct1"] (by rfl)).1,
   ((login_attaches_notifier_every_success envW [] "primary@example.com" "good").1
      wrapper1 mW [.setChangeNotifier "acct1"] (by rfl)).2 []⟩

/-! Helper lemmas about the session registry. -/

theorem countUsers_map_preserve (users : List User) (id : String) (f : User → User)
    (hf : ∀ v, (f v).userID = v.userID) :
    countUsers (users.map f) id = countUsers users id := by
  unfold countUsers
  rw [List.filter_map, List.length_map]
  congr 1
  apply List.filter_congr
  intro v _
  simp [Function.comp, hf v]

theorem countUsers_eq_one_of_find : ∀ (users : List User) (id : String) (u : User),
    (users.map User.userID).Nodup → findUser users id = some u →
    countUsers users id = 1 := by
  intro users
  induction users with
  | nil => intro id u _ hf; simp [findUser] at hf
  | cons v t ih =>
    intro id u hnd hf
    simp only [List.map_cons, List.nodup_cons] at hnd
    by_cases hv : v.userID = id
    · have htail : t.filter (fun w => w.userID == id) = [] := by
        rw [List.filter_eq_nil_iff]
        intro w hw hbe
        have hwid : w.userID = id := by simpa using hbe
        exact hnd.1 (List.mem_map.mpr ⟨w, hw, hwid.trans hv.symm⟩)
      unfold countUsers
      rw [List.filter_cons_of_pos (by simp [hv]), htail]
      rfl
    · have hf' : findUser t id = some u := by
        unfold findUser at hf ⊢
        rwa [List.find?_cons_of_neg _ (by simpa using hv)] at hf
      unfold countUsers
      rw [List.filter_cons_of_neg (by simpa using hv)]
      exact ih id u hnd.2 hf'

/-! Claim theorems for the users manager's login state machine. -/

/-- Claim C2: for every call to `FinishLogin` where no session exists for the
account and the mailbox password fails to unlock the account's private keys,
`FinishLogin` returns a nil session, an empty derived-key string, and
`ErrWrongMailboxPassword`, and the registry afterwards holds zero sessions
for that account (state unchanged on error, no credential-store call). -/
theorem finishLogin_wrong_mailbox_password (env : UsersEnv) (st : UsersState)
    (auth : Auth) (mailboxPassword mainKey : String)
    (hsalt : env.AuthSaltOK = true)
    (hunlock : env.Unlock mailboxPassword = false)
    (hnone : findUser st.users auth.userID = none) :
    FinishLogin env st auth mailboxPassword mainKey =
      ((none, "", some .wrongMailboxPassword), st, []) ∧
    countUsers st.users auth.userID = 0 := by
  constructor
  · simp [FinishLogin, hsalt, hunlock]
  · unfold countUsers
    rw [List.length_eq_zero, List.filter_eq_nil_iff]
    intro u hu
    unfold findUser at hnone
    rw [List.find?_eq_none] at hnone
    exact hnone u hu

/-- Witness for C2: a wrong mailbox password against an empty registry. -/
theorem finishLogin_wrong_mailbox_password_witness :
    uenvW.AuthSaltOK = true ∧ uenvW.Unlock "wrong" = false ∧
    findUser stEmptyW.users authW.userID = none ∧
    (FinishLogin uenvW stEmptyW authW "wrong" "mainkey" =
       ((none, "", some .wrongMailboxPassword), stEmptyW, []) ∧
     countUsers stEmptyW.users authW.userID = 0) :=
  ⟨rfl, by decide, rfl,
   finishLogin_wrong_mailbox_password uenvW stEmptyW authW "wrong" "mainkey" rfl (by decide) rfl⟩

/-- Claim C3: for every call to `FinishLogin` on an account whose session is
already Connected, the operation returns the "already connected" error and no
session, and before returning it revokes the freshly obtained (second) remote
auth by issuing an explicit `AuthDelete` call for the just-issued UID. -/
theorem finishLogin_already_connected_revokes_auth (env : UsersEnv) (st : UsersState)
    (auth : Auth) (mailboxPassword mainKey : String) (profile : UserProfile) (u : User)
    (hsalt : env.AuthSaltOK = true)
    (hunlock : env.Unlock mailboxPassword = true)
    (hprof : env.CurrentUser = some profile)
    (hfind : findUser st.users auth.userID = some u)
    (hconn : u.connected = true) :
    FinishLogin env st auth mailboxPassword mainKey =
      ((none, "", some .alreadyConnected), st, [.authDelete auth.uid]) := by
  simp [FinishLogin, hsalt, hunlock, hprof, hfind, hconn]

/-- Witness for C3: a second login for the concretely connected account. -/
theorem finishLogin_already_connected_revokes_auth_witness :
    findUser stConnW.users authW.userID = some userConnW ∧ userConnW.connected = true ∧
    FinishLogin uenvW stConnW authW "mbpass" "mainkey" =
      ((none, "", some .alreadyConnected), stConnW, [.authDelete "uid2"]) :=
  ⟨rfl, rfl,
   finishLogin_already_connected_revokes_auth uenvW stConnW authW "mbpass" "mainkey"
     profileW userConnW rfl (by decide) rfl rfl rfl⟩

/-- Claim C4: for every call to `FinishLogin` on an account whose session
exists and is Disconnected, a successful login updates the existing
credentials record (issuing `UpdateToken` and `UpdatePassword`, and no `Add`),
transitions the same session object to Connected (the registry is the old
list with only that session's status flipped, same length), and leaves the
registry with exactly one session for that account. -/
theorem finishLogin_disconnected_updates_record (env : UsersEnv) (st : UsersState)
    (auth : Auth) (mailboxPassword mainKey : String) (profile : UserProfile) (u : User)
    (hsalt : env.AuthSaltOK = true)
    (hunlock : env.Unlock mailboxPassword = true)
    (hprof : env.CurrentUser = some profile)
    (hfind : findUser st.users auth.userID = some u)
    (hdisc : u.connected = false)
    (hup1 : env.UpdateTokenOK = true) (hup2 : env.UpdatePasswordOK = true)
    (hnd : (st.users.map User.userID).Nodup) :
    FinishLogin env st auth mailboxPassword mainKey =
      ((some { u with connected := true }, "", none),
       ⟨st.users.map (fun v => if v.userID == auth.userID then { v with connected := true } else v)⟩,
       [.updateToken auth.userID auth.uid auth.refreshToken,
        .updatePassword auth.userID mailboxPassword]) ∧
    ((FinishLogin env st auth mailboxPassword mainKey).2.1.users.length = st.users.length ∧
     countUsers (FinishLogin env st auth mailboxPassword mainKey).2.1.users auth.userID = 1) ∧
    (∀ a b c d e f, CredOp.add a b c d e f ∉ (FinishLogin env st auth mailboxPassword mainKey).2.2) := by
  have heq : FinishLogin env st auth mailboxPassword mainKey =
      ((some { u with connected := true }, "", none),
       ⟨st.users.map (fun v => if v.userID == auth.userID then { v with connected := true } else v)⟩,
       [.updateToken auth.userID auth.uid auth.refreshToken,
        .updatePassword auth.userID mailboxPassword]) := by
    simp [FinishLogin, hsalt, hunlock, hprof, hfind, hdisc, hup1, hup2]
  refine ⟨heq, ⟨?_, ?_⟩, ?_⟩
  · rw [heq]
    simp
  · rw [heq]
    have hpre : countUsers (st.users.map
        (fun v => if v.userID == auth.userID then { v with connected := true } else v))
        auth.userID = countUsers st.users auth.userID := by
      apply countUsers_map_preserve
      intro v
      by_cases h : v.userID == auth.userID <;> simp [h]
    calc countUsers _ auth.userID = countUsers st.users auth.userID := hpre
      _ = 1 := countUsers_eq_one_of_find st.users auth.userID u hnd hfind
  · intro a b c d e f
    rw [heq]
    simp

/-- Witness for C4: the concrete disconnected account relogs in successfully;
the record is updated in place and the registry keeps exactly one session. -/
theorem finishLogin_disconnected_updates_record_witness :
    findUser stDiscW.users authW.userID = some userDiscW ∧
    (FinishLogin uenvW stDiscW authW "mbpass" "mainkey" =
       ((some { userDiscW with connected := true }, "", none),
        ⟨stDiscW.users.map (fun v => if v.userID == authW.userID then { v with connected := true } else v)⟩,
        [.updateToken authW.userID authW.uid authW.refreshToken,
         .updatePassword authW.userID "mbpass"]) ∧
     ((FinishLogin uenvW stDiscW authW "mbpass" "mainkey").2.1.users.length = stDiscW.users.length ∧
      countUsers (FinishLogin uenvW stDiscW authW "mbpass" "mainkey").2.1.users authW.userID = 1) ∧
     (∀ a b c d e f, CredOp.add a b c d e f ∉ (FinishLogin uenvW stDiscW authW "mbpass" "mainkey").2.2)) :=
  ⟨rfl,
   finishLogin_disconnected_updates_record uenvW stDiscW authW "mbpass" "mainkey"
     profileW userDiscW rfl (by decide) rfl rfl rfl rfl rfl (by decide)⟩

/-- Claim C5: for every call to `FinishLogin` with no persisted credentials
for the account (empty registry) and a correct mailbox password, the
operation creates a new Account Session in the Connected state, persists a
new credentials record via the store's `Add`, registers the session so the
registry size becomes one, and returns that session together with a
non-empty derived key string. -/
theorem finishLogin_new_user_connected (env : UsersEnv) (st : UsersState)
    (auth : Auth) (mailboxPassword mainKey : String) (profile : UserProfile)
    (hsalt : env.AuthSaltOK = true)
    (hunlock : env.Unlock mailboxPassword = true)
    (hprof : env.CurrentUser = some profile)
    (hempty : st.users = [])
    (haddOK : env.storeAddOK = true)
    (hkey : env.storeAddKey ≠ "") :
    FinishLogin env st auth mailboxPassword mainKey =
      ((some { userID := auth.userID, addresses := profile.addresses, connected := true },
        env.storeAddKey, none),
       ⟨st.users ++ [{ userID := auth.userID, addresses := profile.addresses, connected := true }]⟩,
       [.add auth.userID auth.uid auth.refreshToken mainKey mailboxPassword profile.addresses]) ∧
    (FinishLogin env st auth mailboxPassword mainKey).2.1.users.length = 1 ∧
    (FinishLogin env st auth mailboxPassword mainKey).1.2.1 ≠ "" := by
  have hfind : findUser st.users auth.userID = none := by simp [findUser, hempty]
  have heq : FinishLogin env st auth mailboxPassword mainKey =
      ((some { userID := auth.userID, addresses := profile.addresses, connected := true },
        env.storeAddKey, none),
       ⟨st.users ++ [{ userID := auth.userID, addresses := profile.addresses, connected := true }]⟩,
       [.add auth.userID auth.uid auth.refreshToken mainKey mailboxPassword profile.addresses]) := by
    simp [FinishLogin, hsalt, hunlock, hprof, hfind, haddOK]
  refine ⟨heq, ?_, ?_⟩
  · rw [heq]
    simp [hempty]
  · rw [heq]
    simpa using hkey

/-- Witness for C5: a brand-new login against the empty registry with the
correct mailbox password. -/
theorem finishLogin_new_user_connected_witness :
    uenvW.Unlock "mbpass" = true ∧ uenvW.storeAddKey ≠ "" ∧
    (FinishLogin uenvW stEmptyW authW "mbpass" "mainkey" =
       ((some { userID := authW.userID, addresses := profileW.addresses, connected := true },
         uenvW.storeAddKey, none),
        ⟨stEmptyW.users ++ [{ userID := authW.userID, addresses := profileW.addresses, connected := true }]⟩,
        [.add authW.userID authW.uid authW.refreshToken "mainkey" "mbpass" profileW.addresses]) ∧
     (FinishLogin uenvW stEmptyW authW "mbpass" "mainkey").2.1.users.length = 1 ∧
     (FinishLogin uenvW stEmptyW authW "mbpass" "mainkey").1.2.1 ≠ "") :=
  ⟨by decide, by decide,
   finishLogin_new_user_connected uenvW stEmptyW authW "mbpass" "mainkey" profileW
     rfl (by decide) rfl rfl rfl (by decide)⟩

/-- Claim C10: for every account previously loaded from persisted credentials
in the Disconnected state, a subsequent successful `FinishLogin` returns an
empty derived key string; the derived key string is non-empty only when a
brand-new session is created for an account with no existing session. -/
theorem finishLogin_key_empty_for_existing (env : UsersEnv) (st : UsersState)
    (auth : Auth) (mailboxPassword mainKey : String) :
    (∀ u profile, env.AuthSaltOK = true → env.Unlock mailboxPassword = true →
      env.CurrentUser = some profile →
      findUser st.users auth.userID = some u → u.connected = false →
      env.UpdateTokenOK = true → env.UpdatePasswordOK = true →
      (FinishLogin env st auth mailboxPassword mainKey).1.2.1 = "") ∧
    (∀ u key st' ops,
      FinishLogin env st auth mailboxPassword mainKey = ((some u, key, none), st', ops) →
      key ≠ "" → findUser st.users auth.userID = none) := by
  constructor
  · intro u profile hsalt hunlock hprof hfind hdisc hup1 hup2
    simp [FinishLogin, hsalt, hunlock, hprof, hfind, hdisc, hup1, hup2]
  · intro u key st' ops h hkey
    unfold FinishLogin at h
    cases hsalt : env.AuthSaltOK with
    | false => simp [hsalt] at h
    | true =>
      simp only [hsalt] at h
      cases hunl : env.Unlock mailboxPassword with
      | false => simp [hunl] at h
      | true =>
        simp only [hunl, Bool.not_true, Bool.false_eq_true, if_false] at h
        cases hprof : env.CurrentUser with
        | none => simp [hprof] at h
        | some profile =>
          simp only [hprof] at h
          cases hfind : findUser st.users auth.userID with
          | none => rfl
          | some v =>
            simp only [hfind] at h
            cases hconn : v.connected with
            | true => simp [hconn] at h
            | false =>
              simp only [hconn, Bool.false_eq_true, if_false] at h
              cases hup1 : env.UpdateTokenOK with
              | false => simp [hup1] at h
              | true =>
                cases hup2 : env.UpdatePasswordOK with
                | false => simp [hup1, hup2] at h
                | true =>
                  simp only [hup1, hup2, Bool.and_self, if_true] at h
                  have hk : key = "" := by
                    have := congrArg (fun t => t.1.2.1) h
                    simpa using this.symm
                  exact absurd hk hkey

/-- Witness for C10: the concrete disconnected account's successful relogin
returns the empty derived key. -/
theorem finishLogin_key_empty_for_existing_witness :
    userDiscW.connected = false ∧
    (FinishLogin uenvW stDiscW authW "mbpass" "mainkey").1.2.1 = "" :=
  ⟨rfl,
   (finishLogin_key_empty_for_existing uenvW stDiscW authW "mbpass" "mainkey").1
     userDiscW profileW rfl (by decide) rfl rfl rfl rfl rfl⟩

/-! The single-instance invariant (claim C1): the cache invariant is
preserved by every login operation, and together with directory consistency
it bounds the number of cache entries per account by one. -/

theorem createUser_inv (env : BackendEnv) (m : UserMap) (a s pw : String)
    (h : cacheInv env m) : cacheInv env (createUser env m a s pw).2 := by
  unfold createUser
  cases hg : env.GetUser a with
  | none => exact h
  | some user =>
    by_cases hb : env.BringOnline user s pw
    · simp only [hb, if_true]
      cases hlk : lookupUser m (lowercase user.primaryAddress) with
      | some cu => exact h
      | none =>
        simp only [hlk]
        cases hid : env.GetAddressID user (lowercase user.primaryAddress) with
        | none => exact h
        | some addressID =>
          simp only [hid]
          by_cases hn : env.newIMAPUserOK user addressID (lowercase user.primaryAddress)
          · simp only [hn, if_true]
            refine ⟨?_, ?_⟩
            · simp only [List.map_cons, List.nodup_cons]
              exact ⟨lookupUser_none_key_not_mem hlk, h.1⟩
            · intro p hp
              rcases List.mem_cons.mp hp with rfl | hp'
              · exact ⟨rfl, ⟨a, hg⟩⟩
              · exact h.2 p hp'
          · simp only [hn, if_false]
            exact h
    · simp only [hb, if_false]
      exact h

theorem getUser_inv (env : BackendEnv) (m : UserMap) (a s pw : String)
    (h : cacheInv env m) : cacheInv env (getUser env m a s pw).2 := by
  unfold getUser
  cases hlk : lookupUser m (lowercase a) with
  | some u => exact h
  | none =>
    simp only [hlk]
    exact createUser_inv env m (lowercase a) s pw h

/-- The cache state a `Login` call leaves behind is the one produced by its
inner `getUser` resolution. -/
theorem Login_state_eq (env : BackendEnv) (m : UserMap) (username password : String) :
    (Login env m username password).2.1 =
      (getUser env m (env.DecodeLogin username).1 (env.DecodeLogin username).2 password).2 := by
  rcases hd : env.DecodeLogin username with ⟨uname, slot⟩
  rcases hg : getUser env m uname slot password with ⟨r, m'⟩
  cases r with
  | error e => simp [Login, hd, hg]
  | ok iu =>
    by_cases hc : env.CheckCredentials iu.user slot password <;>
      by_cases hs : iu.user.storePresent <;> simp [Login, hd, hg, hc, hs]

theorem Login_inv (env : BackendEnv) (m : UserMap) (username password : String)
    (h : cacheInv env m) : cacheInv env (Login env m username password).2.1 := by
  rw [Login_state_eq]
  exact getUser_inv env m _ _ password h

theorem runLogins_inv (env : BackendEnv) (calls : List (String × String)) :
    ∀ m, cacheInv env m → cacheInv env (runLogins env m calls) := by
  induction calls with
  | nil => intro m h; exact h
  | cons c t ih =>
    intro m h
    exact ih _ (Login_inv env m c.1 c.2 h)

theorem countEntries_le_one (env : BackendEnv) (m : UserMap)
    (hc : directoryConsistent env) (h : cacheInv env m) (accId : String) :
    countEntries m accId ≤ 1 := by
  unfold countEntries
  have hsub : (m.filter (fun p => p.2.user.id == accId)).Sublist m := List.filter_sublist m
  have hndk : ((m.filter (fun p => p.2.user.id == accId)).map Prod.fst).Nodup :=
    (hsub.map Prod.fst).nodup h.1
  have hkeys : ∀ x ∈ (m.filter (fun p => p.2.user.id == accId)).map Prod.fst,
      ∀ y ∈ (m.filter (fun p => p.2.user.id == accId)).map Prod.fst, x = y := by
    intro x hx y hy
    rcases List.mem_map.mp hx with ⟨p, hp, rfl⟩
    rcases List.mem_map.mp hy with ⟨q, hq, rfl⟩
    have hpm : p ∈ m := hsub.subset hp
    have hqm : q ∈ m := hsub.subset hq
    obtain ⟨hpkey, a, ha⟩ := h.2 p hpm
    obtain ⟨hqkey, b, hb⟩ := h.2 q hqm
    have hpid : p.2.user.id = accId := by simpa using (List.mem_filter.mp hp).2
    have hqid : q.2.user.id = accId := by simpa using (List.mem_filter.mp hq).2
    have huser : p.2.user = q.2.user := hc a b _ _ ha hb (hpid.trans hqid.symm)
    rw [hpkey, hqkey, huser]
  have hlen := length_le_one_of_nodup_allEq _ hndk hkeys
  simpa using hlen

/-- Claim C1: single-instance invariant.  For every consistent account
directory and every sequence of `Login` calls starting from the empty
backend cache (with any of the accounts' addresses and any casing), the
cache contains at most one session-wrapper entry per account, every entry is
stored under the lowercased canonical primary address of its account, and if
an alias of an already-cached account is logged in, `createUser` returns the
existing wrapper object and does not insert a second entry (the cache state
is unchanged). -/
theorem backend_login_single_instance (env : BackendEnv)
    (hc : directoryConsistent env) (calls : List (String × String)) :
    (∀ accId, countEntries (runLogins env [] calls) accId ≤ 1) ∧
    (∀ p ∈ runLogins env [] calls, p.1 = lowercase p.2.user.primaryAddress) ∧
    (∀ (m : UserMap) (a s pw : String) (A : Account) (u : ImapUser),
      env.GetUser a = some A → env.BringOnline A s pw = true →
      lookupUser m (lowercase A.primaryAddress) = some u →
      createUser env m a s pw = (.ok u, m)) := by
  have hinv : cacheInv env (runLogins env [] calls) :=
    runLogins_inv env calls [] ⟨by simp, by simp⟩
  refine ⟨fun accId => countEntries_le_one env _ hc hinv accId,
          fun p hp => (hinv.2 p hp).1, ?_⟩
  intro m a s pw A u hg hb hlk
  simp [createUser, hg, hb, hlk]

/-- Witness for C1: a concrete directory where the primary address and an
alias (in mixed casing) resolve to the same account; after both log in, the
cache holds at most one entry for the account. -/
theorem backend_login_single_instance_witness :
    directoryConsistent envW ∧
    countEntries (runLogins envW [] [("Primary@Example.Com", "good"), ("alias@example.com", "good")])
      "acct1" ≤ 1 := by
  have hc : directoryConsistent envW := by
    intro a b A B ha hb _
    simp only [envW] at ha hb
    injection ha with ha'
    injection hb with hb'
    rw [← ha', ← hb']
  exact ⟨hc, (backend_login_single_instance envW hc
    [("Primary@Example.Com", "good"), ("alias@example.com", "good")]).1 "acct1"⟩

end Peroxide
